import Mathlib

/- Verification development for the model server's request-ingestion core:
   the sequence lifecycle manager (src/sequence_manager.cpp / .hpp) and the
   NAMED/COLUMN tensor request codec.  The manager is embedded directly from
   the C++ source; the codec implementation file is not part of the snapshot,
   so its model follows the specification (each such definition is marked
   `Modelled from the spec:`). -/

namespace ModelServer

/-- Bound of the C++ `uint64_t` type: arithmetic on sequence ids and the id
counter wraps modulo this value. -/
def U64 : Nat := 2 ^ 64

/-- Status codes of the sequence manager operations (the subset of
`StatusCode` used by `sequence_manager.cpp`). -/
inductive StatusCode where
  | OK
  | SEQUENCE_MISSING
  | SEQUENCE_ALREADY_EXISTS
  | SEQUENCE_TERMINATED
  deriving DecidableEq, Repr

/-- Modelled from the spec: the `Sequence` class (`sequence.hpp` is not in the
snapshot).  A sequence carries its id, the termination flag, the
last-activity timestamp (modelled in whole seconds) and the opaque
memory-state bundle of named tensors (modelled as named flat integer lists). -/
structure Sequence where
  sequenceId : Nat
  terminated : Bool
  lastActivityTime : Nat
  memoryState : List (String × List Int)
  deriving DecidableEq, Repr

/-- Modelled from the spec: constructing a `Sequence` at time `now` yields a
non-terminated entry whose activity time is the construction time. -/
def Sequence.create (id now : Nat) : Sequence :=
  ⟨id, false, now, []⟩

/-- `Sequence::setTerminated`. -/
def Sequence.setTerminated (s : Sequence) : Sequence :=
  { s with terminated := true }

/-- Modelled from the spec: `Sequence::updateMemoryState` replaces the
memory-state bundle and refreshes the last-activity timestamp. -/
def Sequence.updateMemoryState (s : Sequence) (st : List (String × List Int))
    (now : Nat) : Sequence :=
  { s with memoryState := st, lastActivityTime := now }

/-- Modelled from the spec: `SequenceProcessingSpec` — the control input and
the 64-bit sequence id extracted from a request
(`sequence_processing_spec.hpp` is not in the snapshot). -/
structure SequenceProcessingSpec where
  sequenceControlInput : Nat
  sequenceId : Nat
  deriving DecidableEq, Repr

/-- `NO_CONTROL_INPUT` (sequence_manager.hpp line 29). -/
def NO_CONTROL_INPUT : Nat := 0

/-- `SEQUENCE_START` (sequence_manager.hpp line 30). -/
def SEQUENCE_START : Nat := 1

/-- `SEQUENCE_END` (sequence_manager.hpp line 31). -/
def SEQUENCE_END : Nat := 2

/-- State of `SequenceManager` (sequence_manager.hpp): the timeout and
capacity configuration, the id counter, and the registry, an association list
standing for the `std::unordered_map<uint64_t, Sequence>` (unique keys). -/
structure SequenceManager where
  timeout : Nat
  maxSequenceNumber : Nat
  sequenceIdCounter : Nat
  sequences : List (Nat × Sequence)
  deriving DecidableEq, Repr

/-- `SequenceManager::sequenceExists`: `sequences.count(sequenceId)`. -/
def sequenceExists (m : SequenceManager) (sequenceId : Nat) : Bool :=
  (m.sequences.lookup sequenceId).isSome

/-- `SequenceManager::getSequence`: `sequences.at(sequenceId)`.  The C++
`at` is only reached on present keys; the model returns a default on the
impossible miss. -/
def getSequence (m : SequenceManager) (sequenceId : Nat) : Sequence :=
  (m.sequences.lookup sequenceId).getD (Sequence.create 0 0)

/-- The `while` loop of `SequenceManager::getUniqueSequenceId`, iterated with
explicit fuel: the C++ loop increments the `uint64_t` counter (wrapping
modulo `U64`) past `0` and past every key already in the registry and stops
at the first free value.  Fuel `sequences.length + 2` always suffices when
the registry is not saturating the id space (`getUniqueIdAux_goodId`). -/
def getUniqueIdAux (l : List (Nat × Sequence)) : Nat → Nat → Nat
  | 0, counter => counter
  | fuel + 1, counter =>
    if (l.lookup counter).isSome || counter = 0 then
      getUniqueIdAux l fuel ((counter + 1) % U64)
    else counter

/-- `SequenceManager::getUniqueSequenceId`: runs the search loop; the member
counter is left at the id that was found. -/
def getUniqueSequenceId (m : SequenceManager) : Nat × SequenceManager :=
  let uid := getUniqueIdAux m.sequences (m.sequences.length + 2) m.sequenceIdCounter
  (uid, { m with sequenceIdCounter := uid })

/-- `std::unordered_map::emplace`: inserts only when the key is absent. -/
def emplaceSeq (l : List (Nat × Sequence)) (k : Nat) (s : Sequence) :
    List (Nat × Sequence) :=
  if (l.lookup k).isSome then l else (k, s) :: l

/-- `SequenceManager::createSequence`.  The construction time of an inserted
`Sequence` is passed explicitly as `now` (in the C++ the sequence constructor
reads the clock).  Returns the status together with the updated manager and
the updated spec (a generated id is written back into the spec). -/
def createSequence (m : SequenceManager) (spec : SequenceProcessingSpec)
    (now : Nat) : StatusCode × SequenceManager × SequenceProcessingSpec :=
  let sequenceId := spec.sequenceId
  if sequenceId = 0 then
    let r := getUniqueSequenceId m
    (.OK,
      { r.2 with sequences := emplaceSeq r.2.sequences r.1 (Sequence.create r.1 now) },
      { spec with sequenceId := r.1 })
  else if sequenceExists m sequenceId then
    (.SEQUENCE_ALREADY_EXISTS, m, spec)
  else
    (.OK,
      { m with sequences := emplaceSeq m.sequences sequenceId (Sequence.create sequenceId now) },
      spec)

/-- `SequenceManager::hasSequence`. -/
def hasSequence (m : SequenceManager) (sequenceId : Nat) : StatusCode :=
  if ¬ sequenceExists m sequenceId then .SEQUENCE_MISSING
  else if (getSequence m sequenceId).terminated then .SEQUENCE_TERMINATED
  else .OK

/-- The in-place mutation `getSequence(sequenceId).setTerminated()` viewed on
the registry. -/
def setTerminatedSeq (l : List (Nat × Sequence)) (sequenceId : Nat) :
    List (Nat × Sequence) :=
  l.map fun p => if p.1 = sequenceId then (p.1, p.2.setTerminated) else p

/-- `SequenceManager::terminateSequence`. -/
def terminateSequence (m : SequenceManager) (sequenceId : Nat) :
    StatusCode × SequenceManager :=
  let status := hasSequence m sequenceId
  if status ≠ .OK then (status, m)
  else (.OK, { m with sequences := setTerminatedSeq m.sequences sequenceId })

/-- `std::unordered_map::erase(key)`: removes the entry with the given key. -/
def eraseSeq (l : List (Nat × Sequence)) (sequenceId : Nat) :
    List (Nat × Sequence) :=
  l.filter fun p => p.1 ≠ sequenceId

/-- `SequenceManager::removeSequence`. -/
def removeSequence (m : SequenceManager) (sequenceId : Nat) :
    StatusCode × SequenceManager :=
  if (m.sequences.lookup sequenceId).isSome then
    (.OK, { m with sequences := eraseSeq m.sequences sequenceId })
  else
    (.SEQUENCE_MISSING, m)

/-- The erase-or-keep iteration of `SequenceManager::removeTimedOutSequences`;
times are in whole seconds (the C++ applies `duration_cast<seconds>` to the
difference before comparing it with the timeout). -/
def removeTimedOutAux (timeout now : Nat) :
    List (Nat × Sequence) → List (Nat × Sequence)
  | [] => []
  | p :: rest =>
    if now - p.2.lastActivityTime > timeout then removeTimedOutAux timeout now rest
    else p :: removeTimedOutAux timeout now rest

/-- `SequenceManager::removeTimedOutSequences`. -/
def removeTimedOutSequences (m : SequenceManager) (now : Nat) :
    StatusCode × SequenceManager :=
  (.OK, { m with sequences := removeTimedOutAux m.timeout now m.sequences })

/-- `SequenceManager::processRequestedSpec`. -/
def processRequestedSpec (m : SequenceManager) (spec : SequenceProcessingSpec)
    (now : Nat) : StatusCode × SequenceManager × SequenceProcessingSpec :=
  if spec.sequenceControlInput = SEQUENCE_START then
    createSequence m spec now
  else if spec.sequenceControlInput = NO_CONTROL_INPUT then
    (hasSequence m spec.sequenceId, m, spec)
  else
    ((terminateSequence m spec.sequenceId).1, (terminateSequence m spec.sequenceId).2, spec)

/-- Modelled from the spec: the caller-side refresh
`getSequence(sequenceId).updateMemoryState(state)` used by the request
pipeline and by the tests around the timeout sweep. -/
def updateSequenceMemoryState (m : SequenceManager) (sequenceId : Nat)
    (st : List (String × List Int)) (now : Nat) : SequenceManager :=
  { m with sequences := m.sequences.map fun p =>
      if p.1 = sequenceId then (p.1, p.2.updateMemoryState st now) else p }

end ModelServer

namespace ModelServer

theorem lookup_setTerminatedSeq (l : List (Nat × Sequence)) (id : Nat) :
    (setTerminatedSeq l id).lookup id = (l.lookup id).map Sequence.setTerminated := by
  induction l with
  | nil => rfl
  | cons p rest ih =>
    obtain ⟨k, v⟩ := p
    simp only [setTerminatedSeq, List.map_cons] at ih ⊢
    by_cases h : k = id
    · subst h
      simp [List.lookup_cons]
    · have hbeq : (id == k) = false := by simp [Ne.symm h]
      simp [List.lookup_cons, h, hbeq, ih]

theorem lookup_eraseSeq (l : List (Nat × Sequence)) (id : Nat) :
    (eraseSeq l id).lookup id = none := by
  induction l with
  | nil => rfl
  | cons p rest ih =>
    obtain ⟨k, v⟩ := p
    by_cases h : k = id
    · subst h
      simp only [eraseSeq, List.filter_cons] at ih ⊢
      rw [if_neg (by simp)]
      exact ih
    · have hbeq : (id == k) = false := by simp [Ne.symm h]
      simp only [eraseSeq, List.filter_cons] at ih ⊢
      rw [if_pos (by simp [h]), List.lookup_cons, hbeq]
      exact ih

theorem mem_removeTimedOutAux (t now : Nat) (l : List (Nat × Sequence))
    (p : Nat × Sequence) :
    p ∈ removeTimedOutAux t now l ↔ p ∈ l ∧ now - p.2.lastActivityTime ≤ t := by
  induction l with
  | nil => simp [removeTimedOutAux]
  | cons q rest ih =>
    by_cases h : now - q.2.lastActivityTime > t
    · simp only [removeTimedOutAux, if_pos h, ih, List.mem_cons]
      constructor
      · rintro ⟨hp, hle⟩; exact ⟨Or.inr hp, hle⟩
      · rintro ⟨hp | hp, hle⟩
        · subst hp; omega
        · exact ⟨hp, hle⟩
    · simp only [removeTimedOutAux, if_neg h, List.mem_cons, ih]
      constructor
      · rintro (hp | ⟨hp, hle⟩)
        · subst hp; exact ⟨Or.inl rfl, by omega⟩
        · exact ⟨Or.inr hp, hle⟩
      · rintro ⟨hp | hp, hle⟩
        · exact Or.inl hp
        · exact Or.inr ⟨hp, hle⟩

theorem hasSequence_eq_missing (m : SequenceManager) (id : Nat)
    (h : m.sequences.lookup id = none) : hasSequence m id = .SEQUENCE_MISSING := by
  simp [hasSequence, sequenceExists, h]

theorem hasSequence_eq_of_some (m : SequenceManager) (id : Nat) (s : Sequence)
    (h : m.sequences.lookup id = some s) :
    hasSequence m id = if s.terminated then .SEQUENCE_TERMINATED else .OK := by
  simp [hasSequence, sequenceExists, getSequence, h]

theorem terminateSequence_of_missing (m : SequenceManager) (id : Nat)
    (h : m.sequences.lookup id = none) :
    terminateSequence m id = (.SEQUENCE_MISSING, m) := by
  simp [terminateSequence, hasSequence_eq_missing m id h]

theorem terminateSequence_of_terminated (m : SequenceManager) (id : Nat) (s : Sequence)
    (h : m.sequences.lookup id = some s) (ht : s.terminated = true) :
    terminateSequence m id = (.SEQUENCE_TERMINATED, m) := by
  simp [terminateSequence, hasSequence_eq_of_some m id s h, ht]

theorem terminateSequence_of_active (m : SequenceManager) (id : Nat) (s : Sequence)
    (h : m.sequences.lookup id = some s) (ht : s.terminated = false) :
    terminateSequence m id =
      (.OK, { m with sequences := setTerminatedSeq m.sequences id }) := by
  simp [terminateSequence, hasSequence_eq_of_some m id s h, ht]

theorem terminateSequence_second_call (m : SequenceManager) (id : Nat) (s : Sequence)
    (h : m.sequences.lookup id = some s) (ht : s.terminated = false) :
    (terminateSequence (terminateSequence m id).2 id).1 = .SEQUENCE_TERMINATED := by
  rw [terminateSequence_of_active m id s h ht]
  have h2 : ({ m with sequences := setTerminatedSeq m.sequences id } :
      SequenceManager).sequences.lookup id = some s.setTerminated := by
    simp [lookup_setTerminatedSeq, h]
  rw [terminateSequence_of_terminated _ id s.setTerminated h2
    (by simp [Sequence.setTerminated])]

theorem createSequence_of_exists (m : SequenceManager) (spec : SequenceProcessingSpec)
    (now : Nat) (h0 : spec.sequenceId ≠ 0)
    (h : (m.sequences.lookup spec.sequenceId).isSome = true) :
    createSequence m spec now = (.SEQUENCE_ALREADY_EXISTS, m, spec) := by
  simp [createSequence, h0, sequenceExists, h]

theorem createSequence_of_fresh_nonzero (m : SequenceManager)
    (spec : SequenceProcessingSpec) (now : Nat) (h0 : spec.sequenceId ≠ 0)
    (h : m.sequences.lookup spec.sequenceId = none) :
    createSequence m spec now =
      (.OK,
       { m with sequences :=
          (spec.sequenceId, Sequence.create spec.sequenceId now) :: m.sequences },
       spec) := by
  simp [createSequence, h0, sequenceExists, h, emplaceSeq]

theorem createSequence_of_zero (m : SequenceManager) (spec : SequenceProcessingSpec)
    (now : Nat) (h0 : spec.sequenceId = 0) :
    (createSequence m spec now).1 = .OK := by
  simp [createSequence, h0]

/-- C1: `processRequestedSpec` dispatches exactly by the control input —
START invokes `createSequence`, NONE invokes `hasSequence`, END invokes
`terminateSequence`, each returning that operation's status; consequently
NONE on an absent id is missing, START on an absent id succeeds and a repeat
with the same nonzero id already-exists, and END on an absent id is missing,
on an active id succeeds once and is terminated on repetition. -/
theorem processRequestedSpec_dispatch (m : SequenceManager)
    (spec : SequenceProcessingSpec) (now : Nat) :
    (spec.sequenceControlInput = SEQUENCE_START →
      processRequestedSpec m spec now = createSequence m spec now) ∧
    (spec.sequenceControlInput = NO_CONTROL_INPUT →
      processRequestedSpec m spec now = (hasSequence m spec.sequenceId, m, spec)) ∧
    (spec.sequenceControlInput = SEQUENCE_END →
      processRequestedSpec m spec now =
        ((terminateSequence m spec.sequenceId).1,
         (terminateSequence m spec.sequenceId).2, spec)) ∧
    (spec.sequenceControlInput = NO_CONTROL_INPUT →
      m.sequences.lookup spec.sequenceId = none →
      (processRequestedSpec m spec now).1 = .SEQUENCE_MISSING) ∧
    (spec.sequenceControlInput = SEQUENCE_START →
      m.sequences.lookup spec.sequenceId = none →
      (processRequestedSpec m spec now).1 = .OK) ∧
    (spec.sequenceControlInput = SEQUENCE_START → spec.sequenceId ≠ 0 →
      m.sequences.lookup spec.sequenceId = none →
      (processRequestedSpec (processRequestedSpec m spec now).2.1 spec now).1 =
        .SEQUENCE_ALREADY_EXISTS) ∧
    (spec.sequenceControlInput = SEQUENCE_END →
      m.sequences.lookup spec.sequenceId = none →
      (processRequestedSpec m spec now).1 = .SEQUENCE_MISSING) ∧
    (spec.sequenceControlInput = SEQUENCE_END →
      ∀ s, m.sequences.lookup spec.sequenceId = some s → s.terminated = false →
      (processRequestedSpec m spec now).1 = .OK ∧
      (processRequestedSpec (processRequestedSpec m spec now).2.1 spec now).1 =
        .SEQUENCE_TERMINATED) := by
  have hstart : ∀ (ma : SequenceManager), spec.sequenceControlInput = SEQUENCE_START →
      processRequestedSpec ma spec now = createSequence ma spec now := by
    intro ma h; simp [processRequestedSpec, h]
  have hnone : spec.sequenceControlInput = NO_CONTROL_INPUT →
      processRequestedSpec m spec now = (hasSequence m spec.sequenceId, m, spec) := by
    intro h; simp [processRequestedSpec, h, NO_CONTROL_INPUT, SEQUENCE_START]
  have hend : ∀ (ma : SequenceManager), spec.sequenceControlInput = SEQUENCE_END →
      processRequestedSpec ma spec now =
        ((terminateSequence ma spec.sequenceId).1,
         (terminateSequence ma spec.sequenceId).2, spec) := by
    intro ma h
    simp [processRequestedSpec, h, NO_CONTROL_INPUT, SEQUENCE_START, SEQUENCE_END]
  refine ⟨hstart m, hnone, hend m, ?_, ?_, ?_, ?_, ?_⟩
  · intro h hm
    rw [hnone h, hasSequence_eq_missing m spec.sequenceId hm]
  · intro h hm
    rw [hstart m h]
    by_cases h0 : spec.sequenceId = 0
    · exact createSequence_of_zero m spec now h0
    · rw [createSequence_of_fresh_nonzero m spec now h0 hm]
  · intro h h0 hm
    rw [hstart m h, createSequence_of_fresh_nonzero m spec now h0 hm]
    show (processRequestedSpec
        { m with sequences :=
            (spec.sequenceId, Sequence.create spec.sequenceId now) :: m.sequences }
        spec now).1 = _
    rw [hstart _ h]
    exact congrArg Prod.fst
      (createSequence_of_exists _ spec now h0 (by simp [List.lookup_cons]))
  · intro h hm
    rw [hend m h]
    simp [terminateSequence_of_missing m spec.sequenceId hm]
  · intro h s hs ht
    refine ⟨?_, ?_⟩
    · rw [hend m h]
      simp [terminateSequence_of_active m spec.sequenceId s hs ht]
    · rw [hend m h]
      show (processRequestedSpec (terminateSequence m spec.sequenceId).2 spec now).1 = _
      rw [hend _ h]
      show (terminateSequence (terminateSequence m spec.sequenceId).2 spec.sequenceId).1 = _
      exact terminateSequence_second_call m spec.sequenceId s hs ht

/-- C3: failed operations are atomic on the registry — `createSequence` with
a nonzero id already present fails with already-exists and returns the
manager unchanged (so the existing entry keeps its termination flag, memory
state and activity time), and `terminateSequence` on an absent id fails with
missing and returns the manager unchanged (no entry is created). -/
theorem failed_operations_leave_registry_unchanged (m : SequenceManager)
    (spec : SequenceProcessingSpec) (now id : Nat) :
    (spec.sequenceId ≠ 0 → (m.sequences.lookup spec.sequenceId).isSome = true →
      createSequence m spec now = (.SEQUENCE_ALREADY_EXISTS, m, spec)) ∧
    (m.sequences.lookup id = none →
      terminateSequence m id = (.SEQUENCE_MISSING, m)) :=
  ⟨fun h0 h => createSequence_of_exists m spec now h0 h,
   fun h => terminateSequence_of_missing m id h⟩

/-- C4: `terminateSequence` propagates the exact failure kind of the
`hasSequence` check — missing on an absent id, terminated on an already
terminated entry — and otherwise flips the entry to TERMINATED and succeeds;
two consecutive calls on an ACTIVE id give OK then SEQUENCE_TERMINATED. -/
theorem terminateSequence_propagates_hasSequence (m : SequenceManager) (id : Nat) :
    (hasSequence m id ≠ .OK → terminateSequence m id = (hasSequence m id, m)) ∧
    (m.sequences.lookup id = none →
      terminateSequence m id = (.SEQUENCE_MISSING, m)) ∧
    (∀ s, m.sequences.lookup id = some s → s.terminated = true →
      terminateSequence m id = (.SEQUENCE_TERMINATED, m)) ∧
    (∀ s, m.sequences.lookup id = some s → s.terminated = false →
      terminateSequence m id =
        (.OK, { m with sequences := setTerminatedSeq m.sequences id }) ∧
      (terminateSequence (terminateSequence m id).2 id).1 = .SEQUENCE_TERMINATED) := by
  refine ⟨?_, terminateSequence_of_missing m id, ?_, ?_⟩
  · intro h
    simp [terminateSequence, h]
  · intro s hs ht
    exact terminateSequence_of_terminated m id s hs ht
  · intro s hs ht
    exact ⟨terminateSequence_of_active m id s hs ht,
      terminateSequence_second_call m id s hs ht⟩

/-- C6: `removeSequence` fails with missing on an absent id and changes
nothing; on a present id — terminated or not — it deletes the entry,
succeeds, and afterwards `sequenceExists` is false. -/
theorem removeSequence_deletes_entry (m : SequenceManager) (id : Nat) :
    (m.sequences.lookup id = none →
      removeSequence m id = (.SEQUENCE_MISSING, m)) ∧
    ((m.sequences.lookup id).isSome = true →
      (removeSequence m id).1 = .OK ∧
      (removeSequence m id).2 = { m with sequences := eraseSeq m.sequences id } ∧
      sequenceExists (removeSequence m id).2 id = false) := by
  constructor
  · intro h
    simp [removeSequence, h]
  · intro h
    refine ⟨?_, ?_, ?_⟩
    · simp [removeSequence, h]
    · simp [removeSequence, h]
    · simp [removeSequence, h, sequenceExists, lookup_eraseSeq]

/-- C10: every control input other than `NO_CONTROL_INPUT` and
`SEQUENCE_START` — including unknown codes such as 3 or 7 — takes the
`SEQUENCE_END` branch of `processRequestedSpec` and invokes
`terminateSequence`; no branch reports an unrecognized control input. -/
theorem processRequestedSpec_default_branch_is_end (m : SequenceManager)
    (spec : SequenceProcessingSpec) (now : Nat)
    (h0 : spec.sequenceControlInput ≠ NO_CONTROL_INPUT)
    (h1 : spec.sequenceControlInput ≠ SEQUENCE_START) :
    processRequestedSpec m spec now =
      ((terminateSequence m spec.sequenceId).1,
       (terminateSequence m spec.sequenceId).2, spec) := by
  simp [processRequestedSpec, h0, h1]

def mgrEmpty : SequenceManager := ⟨120, 24, 0, []⟩

def mgrActive42 : SequenceManager := ⟨120, 24, 0, [(42, Sequence.create 42 0)]⟩

/-- Witness for C1 at concrete inputs. -/
theorem processRequestedSpec_dispatch_witness :
    (processRequestedSpec mgrEmpty ⟨NO_CONTROL_INPUT, 42⟩ 0).1 = .SEQUENCE_MISSING ∧
    (processRequestedSpec mgrEmpty ⟨SEQUENCE_START, 42⟩ 0).1 = .OK ∧
    (processRequestedSpec (processRequestedSpec mgrEmpty ⟨SEQUENCE_START, 42⟩ 0).2.1
      ⟨SEQUENCE_START, 42⟩ 0).1 = .SEQUENCE_ALREADY_EXISTS ∧
    (processRequestedSpec mgrEmpty ⟨SEQUENCE_END, 42⟩ 0).1 = .SEQUENCE_MISSING ∧
    (processRequestedSpec mgrActive42 ⟨SEQUENCE_END, 42⟩ 0).1 = .OK ∧
    (processRequestedSpec (processRequestedSpec mgrActive42 ⟨SEQUENCE_END, 42⟩ 0).2.1
      ⟨SEQUENCE_END, 42⟩ 0).1 = .SEQUENCE_TERMINATED := by
  have h1 := processRequestedSpec_dispatch mgrEmpty ⟨NO_CONTROL_INPUT, 42⟩ 0
  have h2 := processRequestedSpec_dispatch mgrEmpty ⟨SEQUENCE_START, 42⟩ 0
  have h3 := processRequestedSpec_dispatch mgrEmpty ⟨SEQUENCE_END, 42⟩ 0
  have h4 := processRequestedSpec_dispatch mgrActive42 ⟨SEQUENCE_END, 42⟩ 0
  have e4 := h4.2.2.2.2.2.2.2 rfl (Sequence.create 42 0) (by decide) (by decide)
  exact ⟨h1.2.2.2.1 rfl rfl,
    h2.2.2.2.2.1 rfl rfl,
    h2.2.2.2.2.2.1 rfl (by decide) rfl,
    h3.2.2.2.2.2.2.1 rfl rfl,
    e4.1, e4.2⟩

/-- Witness for C3 at concrete inputs. -/
theorem failed_operations_leave_registry_unchanged_witness :
    createSequence mgrActive42 ⟨SEQUENCE_START, 42⟩ 7 =
      (.SEQUENCE_ALREADY_EXISTS, mgrActive42, ⟨SEQUENCE_START, 42⟩) ∧
    terminateSequence mgrActive42 99 = (.SEQUENCE_MISSING, mgrActive42) :=
  ⟨(failed_operations_leave_registry_unchanged mgrActive42 ⟨SEQUENCE_START, 42⟩ 7 99).1
      (by decide) (by decide),
   (failed_operations_leave_registry_unchanged mgrActive42 ⟨SEQUENCE_START, 42⟩ 7 99).2
      (by decide)⟩

/-- Witness for C4 at concrete inputs. -/
theorem terminateSequence_propagates_hasSequence_witness :
    terminateSequence mgrEmpty 42 = (.SEQUENCE_MISSING, mgrEmpty) ∧
    (terminateSequence mgrActive42 42).1 = .OK ∧
    (terminateSequence (terminateSequence mgrActive42 42).2 42).1 =
      .SEQUENCE_TERMINATED := by
  have h1 := (terminateSequence_propagates_hasSequence mgrEmpty 42).2.1 (by decide)
  have h2 := (terminateSequence_propagates_hasSequence mgrActive42 42).2.2.2
    (Sequence.create 42 0) (by decide) (by decide)
  exact ⟨h1, by rw [h2.1], h2.2⟩

/-- Witness for C6 at concrete inputs. -/
theorem removeSequence_deletes_entry_witness :
    removeSequence mgrEmpty 42 = (.SEQUENCE_MISSING, mgrEmpty) ∧
    (removeSequence mgrActive42 42).1 = .OK ∧
    sequenceExists (removeSequence mgrActive42 42).2 42 = false := by
  have h1 := (removeSequence_deletes_entry mgrEmpty 42).1 (by decide)
  have h2 := (removeSequence_deletes_entry mgrActive42 42).2 (by decide)
  exact ⟨h1, h2.1, h2.2.2⟩

/-- Witness for C10 at concrete control codes 3 and 7. -/
theorem processRequestedSpec_default_branch_is_end_witness :
    processRequestedSpec mgrActive42 ⟨3, 42⟩ 0 =
      ((terminateSequence mgrActive42 42).1, (terminateSequence mgrActive42 42).2,
        ⟨3, 42⟩) ∧
    processRequestedSpec mgrEmpty ⟨7, 99⟩ 0 =
      ((terminateSequence mgrEmpty 99).1, (terminateSequence mgrEmpty 99).2,
        ⟨7, 99⟩) :=
  ⟨processRequestedSpec_default_branch_is_end mgrActive42 ⟨3, 42⟩ 0 (by decide) (by decide),
   processRequestedSpec_default_branch_is_end mgrEmpty ⟨7, 99⟩ 0 (by decide) (by decide)⟩

def sweepMgr0 : SequenceManager := ⟨5, 24, 77, []⟩

def sweepMgr2 : SequenceManager :=
  (createSequence (createSequence sweepMgr0 ⟨SEQUENCE_START, 42⟩ 0).2.1
    ⟨SEQUENCE_START, 314⟩ 0).2.1

def sweepMgr3 : SequenceManager := (removeTimedOutSequences sweepMgr2 3).2

def sweepMgr4 : SequenceManager :=
  updateSequenceMemoryState sweepMgr3 42 [("state1", [0, 1])] 3

def sweepMgr5 : SequenceManager := (removeTimedOutSequences sweepMgr4 6).2

/-- C5: the sweep returns OK and keeps exactly the entries whose idle time
`now - last_activity` does not exceed the timeout, irrespective of the
termination flag, leaving kept entries untouched; with timeout 5, an entry
refreshed 3 seconds before a sweep survives while a sibling idle for more
than 5 seconds is removed. -/
theorem removeTimedOutSequences_exact (m : SequenceManager) (now : Nat) :
    (removeTimedOutSequences m now).1 = .OK ∧
    (∀ p : Nat × Sequence,
      p ∈ (removeTimedOutSequences m now).2.sequences ↔
        p ∈ m.sequences ∧ now - p.2.lastActivityTime ≤ m.timeout) ∧
    ((removeTimedOutSequences m now).2.timeout = m.timeout ∧
     (removeTimedOutSequences m now).2.maxSequenceNumber = m.maxSequenceNumber) ∧
    (sequenceExists sweepMgr3 42 = true ∧ sequenceExists sweepMgr3 314 = true ∧
     sequenceExists sweepMgr5 42 = true ∧ sequenceExists sweepMgr5 314 = false) := by
  refine ⟨rfl, ?_, ⟨rfl, rfl⟩, by decide⟩
  intro p
  exact mem_removeTimedOutAux m.timeout now m.sequences p

/-- An id is free for generation: no registry entry under it and nonzero. -/
def goodId (l : List (Nat × Sequence)) (c : Nat) : Prop :=
  (l.lookup c).isSome = false ∧ c ≠ 0

theorem lookup_isSome_mem_keys (l : List (Nat × Sequence)) (x : Nat)
    (h : (l.lookup x).isSome = true) : x ∈ l.map Prod.fst := by
  induction l with
  | nil => simp at h
  | cons p rest ih =>
    obtain ⟨k, v⟩ := p
    by_cases hk : x = k
    · simp [hk]
    · have hbeq : (x == k) = false := by simp [hk]
      rw [List.lookup_cons] at h
      rw [hbeq] at h
      simp only [List.map_cons, List.mem_cons]
      exact Or.inr (ih h)

theorem getUniqueIdAux_goodId (l : List (Nat × Sequence)) :
    ∀ fuel counter : Nat, counter < U64 →
      (∃ i, i < fuel ∧ goodId l ((counter + i) % U64)) →
      goodId l (getUniqueIdAux l fuel counter) := by
  intro fuel
  induction fuel with
  | zero =>
    rintro counter hc ⟨i, hi, _⟩
    omega
  | succ n ih =>
    rintro counter hc ⟨i, hi, hg⟩
    by_cases hgood : goodId l counter
    · have : getUniqueIdAux l (n + 1) counter = counter := by
        simp [getUniqueIdAux, hgood.1, hgood.2]
      rwa [this]
    · have hcond : ((l.lookup counter).isSome || decide (counter = 0)) = true := by
        rcases Bool.eq_false_or_eq_true (l.lookup counter).isSome with hb | hb
        · simp [hb]
        · by_cases h0 : counter = 0
          · simp [h0]
          · exact absurd ⟨hb, h0⟩ hgood
      have hstep : getUniqueIdAux l (n + 1) counter =
          getUniqueIdAux l n ((counter + 1) % U64) := by
        simp [getUniqueIdAux, hcond]
      rw [hstep]
      have hU64pos : 0 < U64 := by decide
      have hi0 : i ≠ 0 := by
        intro h0
        apply hgood
        have : (counter + 0) % U64 = counter := by
          simpa using Nat.mod_eq_of_lt hc
        rw [h0, this] at hg
        exact hg
      obtain ⟨j, rfl⟩ : ∃ j, i = j + 1 := ⟨i - 1, by omega⟩
      refine ih ((counter + 1) % U64) (Nat.mod_lt _ hU64pos) ⟨j, by omega, ?_⟩
      have : ((counter + 1) % U64 + j) % U64 = (counter + (j + 1)) % U64 := by
        rw [Nat.mod_add_mod]
        ring_nf
      rwa [this]

theorem exists_goodId_in_window (l : List (Nat × Sequence)) (counter : Nat)
    (hlen : l.length + 2 ≤ U64) (_hc : counter < U64) :
    ∃ i, i < l.length + 2 ∧ goodId l ((counter + i) % U64) := by
  classical
  have hinj : Set.InjOn (fun i => (counter + i) % U64)
      ↑(Finset.range (l.length + 2)) := by
    intro i hi j hj hij
    simp only [Finset.coe_range, Set.mem_Iio] at hi hj
    have h3 : i ≡ j [MOD U64] := Nat.ModEq.add_left_cancel' counter hij
    have h4 : i % U64 = j % U64 := h3
    rwa [Nat.mod_eq_of_lt (by omega), Nat.mod_eq_of_lt (by omega)] at h4
  have hcardS : ((Finset.range (l.length + 2)).image
      (fun i => (counter + i) % U64)).card = l.length + 2 := by
    rw [Finset.card_image_of_injOn hinj, Finset.card_range]
  have hcardB : ((l.map Prod.fst).toFinset ∪ ({0} : Finset ℕ)).card ≤ l.length + 1 := by
    have h1 := Finset.card_union_le (l.map Prod.fst).toFinset ({0} : Finset ℕ)
    have h2 := (l.map Prod.fst).toFinset_card_le
    have h3 : (l.map Prod.fst).length = l.length := List.length_map l Prod.fst
    simp only [Finset.card_singleton] at h1
    omega
  obtain ⟨x, hxS, hxB⟩ : ∃ x ∈ (Finset.range (l.length + 2)).image
      (fun i => (counter + i) % U64),
      x ∉ (l.map Prod.fst).toFinset ∪ ({0} : Finset ℕ) := by
    by_contra hcon
    push_neg at hcon
    have := Finset.card_le_card fun e he => hcon e he
    omega
  obtain ⟨i, hi, hxi⟩ := Finset.mem_image.mp hxS
  refine ⟨i, by simpa using hi, ?_⟩
  rw [hxi]
  constructor
  · rcases Bool.eq_false_or_eq_true (l.lookup x).isSome with hb | hb
    · exact absurd
        (Finset.mem_union_left _ (List.mem_toFinset.mpr (lookup_isSome_mem_keys l x hb)))
        hxB
    · exact hb
  · intro h0
    exact hxB (Finset.mem_union_right _ (by simp [h0]))

/-- C2: `createSequence` with `sequence_id == 0` always succeeds — it
generates an id that is nonzero and not yet a key of the registry, writes it
back into the spec, and inserts a new non-terminated sequence under it.  The
hypotheses are the machine invariants of the C++ state: the counter is a
`uint64_t` value and the registry does not exhaust the 64-bit id space. -/
theorem createSequence_generated_id (m : SequenceManager)
    (spec : SequenceProcessingSpec) (now : Nat)
    (hid : spec.sequenceId = 0)
    (hctr : m.sequenceIdCounter < U64)
    (hlen : m.sequences.length + 2 ≤ U64) :
    (createSequence m spec now).1 = .OK ∧
    (createSequence m spec now).2.2.sequenceId ≠ 0 ∧
    m.sequences.lookup (createSequence m spec now).2.2.sequenceId = none ∧
    (createSequence m spec now).2.1.sequences =
      ((createSequence m spec now).2.2.sequenceId,
        Sequence.create (createSequence m spec now).2.2.sequenceId now) ::
        m.sequences ∧
    (Sequence.create (createSequence m spec now).2.2.sequenceId now).terminated
      = false := by
  have hgood : goodId m.sequences
      (getUniqueIdAux m.sequences (m.sequences.length + 2) m.sequenceIdCounter) :=
    getUniqueIdAux_goodId m.sequences _ _ hctr
      (exists_goodId_in_window m.sequences m.sequenceIdCounter hlen hctr)
  have hunfold : createSequence m spec now =
      (.OK,
       { m with
          sequenceIdCounter :=
            getUniqueIdAux m.sequences (m.sequences.length + 2) m.sequenceIdCounter,
          sequences :=
            (getUniqueIdAux m.sequences (m.sequences.length + 2) m.sequenceIdCounter,
              Sequence.create
                (getUniqueIdAux m.sequences (m.sequences.length + 2) m.sequenceIdCounter)
                now) :: m.sequences },
       { spec with sequenceId :=
          getUniqueIdAux m.sequences (m.sequences.length + 2) m.sequenceIdCounter }) := by
    simp [createSequence, hid, getUniqueSequenceId, emplaceSeq, hgood.1]
  rw [hunfold]
  refine ⟨rfl, hgood.2, ?_, rfl, rfl⟩
  show m.sequences.lookup
      (getUniqueIdAux m.sequences (m.sequences.length + 2) m.sequenceIdCounter) = none
  exact Option.not_isSome_iff_eq_none.mp (by simp [hgood.1])

/-- Witness for C2 at a concrete empty manager with counter 0: the generated
id is 1. -/
theorem createSequence_generated_id_witness :
    (createSequence mgrEmpty ⟨SEQUENCE_START, 0⟩ 5).1 = .OK ∧
    (createSequence mgrEmpty ⟨SEQUENCE_START, 0⟩ 5).2.2.sequenceId ≠ 0 ∧
    mgrEmpty.sequences.lookup
      (createSequence mgrEmpty ⟨SEQUENCE_START, 0⟩ 5).2.2.sequenceId = none ∧
    (createSequence mgrEmpty ⟨SEQUENCE_START, 0⟩ 5).2.1.sequences =
      ((createSequence mgrEmpty ⟨SEQUENCE_START, 0⟩ 5).2.2.sequenceId,
        Sequence.create
          (createSequence mgrEmpty ⟨SEQUENCE_START, 0⟩ 5).2.2.sequenceId 5) ::
        mgrEmpty.sequences ∧
    (Sequence.create
      (createSequence mgrEmpty ⟨SEQUENCE_START, 0⟩ 5).2.2.sequenceId 5).terminated
      = false :=
  createSequence_generated_id mgrEmpty ⟨SEQUENCE_START, 0⟩ 5 rfl (by decide) (by decide)

/-- Modelled from the spec: the element types supported by the codec —
signed/unsigned 8/16/32/64-bit integers and 32/16-bit floats. -/
inductive Precision where
  | FP32
  | FP16
  | I8
  | I16
  | I32
  | I64
  | U8
  | U16
  | U32
  | U64
  deriving DecidableEq, Repr

/-- Whether the element type is a floating-point type. -/
def Precision.isFloat : Precision → Bool
  | .FP32 | .FP16 => true
  | _ => false

/-- Whether the integer element type is signed. -/
def Precision.signed : Precision → Bool
  | .I8 | .I16 | .I32 | .I64 => true
  | _ => false

/-- Bit width of the element type. -/
def Precision.width : Precision → Nat
  | .I8 | .U8 => 8
  | .I16 | .U16 | .FP16 => 16
  | .I32 | .U32 | .FP32 => 32
  | .I64 | .U64 => 64

/-- Modelled from the spec: the JSON value tree of a request body. -/
inductive JsonValue where
  | num (q : ℚ)
  | str (s : String)
  | boolean (b : Bool)
  | null
  | arr (elements : List JsonValue)
  | obj (fields : List (String × JsonValue))
  deriving Repr

/-- Truncation toward zero of a rational number — the integer part taken by
the C narrowing cast of a floating literal. -/
def ratTrunc (q : ℚ) : Int := Int.tdiv q.num (q.den : Int)

/-- Reduction of an integer into an unsigned `w`-bit machine word. -/
def intWrapUnsigned (w : Nat) (i : Int) : Int := i % ((2 : Int) ^ w)

/-- Reduction of an integer into a signed two's-complement `w`-bit word. -/
def intWrapSigned (w : Nat) (i : Int) : Int :=
  let r := i % ((2 : Int) ^ w)
  if r < (2 : Int) ^ (w - 1) then r else r - (2 : Int) ^ w

/-- Modelled from the spec: conversion of a JSON numeric literal to the
declared element type.  Integer targets take the value truncated toward zero
and reduced into the target width and signedness (a narrowing cast with
wraparound and undetected overflow); floating targets take the literal value
itself (rounding of values not exactly representable in the 32/16-bit float
formats is not modelled; the claims evaluate floats only on exactly
representable values). -/
def convertScalar (p : Precision) (q : ℚ) : ℚ :=
  if p.isFloat then q
  else if p.signed then (intWrapSigned p.width (ratTrunc q) : ℚ)
  else (intWrapUnsigned p.width (ratTrunc q) : ℚ)

/-- TensorBuffer (spec §3): the typed, shaped, flat output of the codec in
row-major order. -/
structure TensorBuffer where
  shape : List Nat
  elementType : Precision
  data : List ℚ
  deriving DecidableEq, Repr

mutual

/-- All numeric leaves of a value in depth-first nesting order — the
reference notion of row-major order. -/
def flattenNums : JsonValue → List ℚ
  | .num q => [q]
  | .arr es => flattenNumsList es
  | _ => []

/-- `flattenNums` over a list of sibling values, left to right. -/
def flattenNumsList : List JsonValue → List ℚ
  | [] => []
  | e :: rest => flattenNums e ++ flattenNumsList rest

end

mutual

/-- Modelled from the spec: recursive shape inference — a node is either a
terminal numeric scalar or a list whose elements all have the identical
shape one level down (rectangularity); the inferred shape is the sequence of
list lengths and the data is the terminals in nesting order.  Any other node
(string, boolean, null, object) fails. -/
def inferShape : JsonValue → Option (List Nat × List ℚ)
  | .num q => some ([], [q])
  | .arr es =>
    match inferShapeList es with
    | none => none
    | some rs =>
      match rs with
      | [] => some ([0], [])
      | r :: rest =>
        if rest.all (fun t => t.1 == r.1) then
          some (es.length :: r.1, (rs.map Prod.snd).flatten)
        else none
  | _ => none

/-- `inferShape` applied to every element of a sibling list. -/
def inferShapeList : List JsonValue → Option (List (List Nat × List ℚ))
  | [] => some []
  | e :: rest =>
    match inferShape e, inferShapeList rest with
    | some r, some rs => some (r :: rs)
    | _, _ => none

end

/-- Modelled from the spec: per-input decode — infer the shape with the
rectangularity check, require it to match the declared shape dimension by
dimension with the outermost (batch) dimension free, and convert every
terminal in nesting order to the declared element type. -/
def decodeOneInput (declared : List Nat) (p : Precision) (v : JsonValue) :
    Option TensorBuffer :=
  match inferShape v with
  | none => none
  | some (s, d) =>
    if s.length = declared.length ∧ s.tail = declared.tail then
      some ⟨s, p, d.map (convertScalar p)⟩
    else none

/-- Modelled from the spec: decode every named input against its declared
shape and type, failing the whole request on the first malformed or unknown
input (no partial success). -/
def parseInputsFields (sig : List (String × List Nat × Precision)) :
    List (String × JsonValue) → Option (List (String × TensorBuffer))
  | [] => some []
  | (name, v) :: rest =>
    match sig.lookup name with
    | none => none
    | some (declared, p) =>
      match decodeOneInput declared p v with
      | none => none
      | some buf =>
        match parseInputsFields sig rest with
        | none => none
        | some bufs => some ((name, buf) :: bufs)

/-- Outcome kinds of the codec (the REST subset of `StatusCode`). -/
inductive RestStatus where
  | OK
  | REST_INPUTS_NOT_AN_OBJECT
  | REST_NO_INPUTS_FOUND
  | REST_COULD_NOT_PARSE_INPUT
  deriving DecidableEq, Repr

/-- Modelled from the spec: the codec entry point restricted to the
NAMED/COLUMN format — the top-level `inputs` field must be present and a
non-empty mapping; a non-container `inputs` value is the wrong-container
error; one malformed input rejects the whole request with no tensor
output. -/
def parseNamedColumn (sig : List (String × List Nat × Precision))
    (body : JsonValue) : RestStatus × List (String × TensorBuffer) :=
  match body with
  | .obj fields =>
    match fields.lookup "inputs" with
    | none => (.REST_NO_INPUTS_FOUND, [])
    | some (.obj inputFields) =>
      if inputFields.isEmpty then (.REST_NO_INPUTS_FOUND, [])
      else
        match parseInputsFields sig inputFields with
        | some bufs => (.OK, bufs)
        | none => (.REST_COULD_NOT_PARSE_INPUT, [])
    | some _ => (.REST_INPUTS_NOT_AN_OBJECT, [])
  | _ => (.REST_NO_INPUTS_FOUND, [])

end ModelServer

namespace ModelServer

def bodyTwoInputs : JsonValue :=
  .obj [("inputs", .obj [
    ("inputA", .arr [.arr [.arr [.arr [.num 1, .num 2], .arr [.num 3, .num 4], .arr [.num 5, .num 6]], .arr [.arr [.num 7, .num 8], .arr [.num 9, .num 10], .arr [.num 11, .num 12]]], .arr [.arr [.arr [.num 101, .num 102], .arr [.num 103, .num 104], .arr [.num 105, .num 106]], .arr [.arr [.num 107, .num 108], .arr [.num 109, .num 110], .arr [.num 111, .num 112]]]]),
    ("inputB", .arr [.arr [.arr [.num 1, .num 2, .num 3], .arr [.num 4, .num 5, .num 6]], .arr [.arr [.num 11, .num 12, .num 13], .arr [.num 14, .num 15, .num 16]]])]),
    ("signature_name", .str "serving_default")]

def sigTwoInputs : List (String × List Nat × Precision) :=
  [("inputA", ([2, 2, 3, 2], .FP32)), ("inputB", ([2, 2, 3], .FP32))]

theorem flatten_length_const (rs : List (List Nat × List ℚ)) (c : Nat)
    (h : ∀ r ∈ rs, r.2.length = c) :
    ((rs.map Prod.snd).flatten).length = rs.length * c := by
  induction rs with
  | nil => simp
  | cons r rest ih =>
    simp only [List.map_cons, List.flatten_cons, List.length_append,
      List.length_cons]
    rw [h r (List.mem_cons_self r rest),
      ih (fun t ht => h t (List.mem_cons_of_mem r ht))]
    ring

theorem inferShapeList_sound (es : List JsonValue)
    (ih : ∀ e ∈ es, ∀ s d, inferShape e = some (s, d) →
      d = flattenNums e ∧ d.length = s.prod) :
    ∀ rs, inferShapeList es = some rs →
      rs.length = es.length ∧
      (rs.map Prod.snd).flatten = flattenNumsList es ∧
      ∀ r ∈ rs, r.2.length = r.1.prod := by
  induction es with
  | nil =>
    intro rs h
    simp only [inferShapeList] at h
    injection h with h
    subst h
    simp [flattenNumsList]
  | cons e rest ihl =>
    intro rs h
    simp only [inferShapeList] at h
    cases he : inferShape e with
    | none => rw [he] at h; simp at h
    | some r =>
      cases hrest : inferShapeList rest with
      | none => rw [he, hrest] at h; simp at h
      | some rs2 =>
        rw [he, hrest] at h
        injection h with h
        subst h
        obtain ⟨h1, h2, h3⟩ :=
          ihl (fun x hx => ih x (List.mem_cons_of_mem e hx)) rs2 hrest
        obtain ⟨hd, hlen⟩ := ih e (List.mem_cons_self e rest) r.1 r.2 (by rw [he])
        refine ⟨by simp [h1], ?_, ?_⟩
        · simp only [List.map_cons, List.flatten_cons, flattenNumsList]
          rw [hd, h2]
        · intro t ht
          rcases List.mem_cons.mp ht with hh | hh
          · subst hh; exact hlen
          · exact h3 t hh

theorem inferShape_sound_aux :
    ∀ n (v : JsonValue), sizeOf v ≤ n → ∀ s d, inferShape v = some (s, d) →
      d = flattenNums v ∧ d.length = s.prod := by
  intro n
  induction n with
  | zero =>
    intro v hv
    exfalso
    cases v <;> simp_arith at hv
  | succ n ih =>
    intro v hv s d h
    cases v with
    | num q =>
      simp only [inferShape] at h
      injection h with h
      rw [show s = [] from (Prod.mk.injEq _ _ _ _ |>.mp h.symm).1,
        show d = [q] from (Prod.mk.injEq _ _ _ _ |>.mp h.symm).2]
      simp [flattenNums]
    | str s2 => simp [inferShape] at h
    | boolean b => simp [inferShape] at h
    | null => simp [inferShape] at h
    | obj fs => simp [inferShape] at h
    | arr es =>
      have hes : ∀ e ∈ es, sizeOf e ≤ n := by
        intro e he
        have h1 := List.sizeOf_lt_of_mem he
        have h2 : sizeOf (JsonValue.arr es) = 1 + sizeOf es := by simp
        omega
      simp only [inferShape] at h
      cases hl : inferShapeList es with
      | none => rw [hl] at h; simp at h
      | some rs =>
        rw [hl] at h
        obtain ⟨hlen, hflat, hall⟩ :=
          inferShapeList_sound es (fun e he sx dx hx => ih e (hes e he) sx dx hx) rs hl
        cases rs with
        | nil =>
          injection h with h
          have hs := (Prod.mk.injEq _ _ _ _ |>.mp h.symm).1
          have hd := (Prod.mk.injEq _ _ _ _ |>.mp h.symm).2
          subst hs; subst hd
          have hes0 : es = [] := List.length_eq_zero.mp (by simpa using hlen.symm)
          subst hes0
          simp [flattenNums, flattenNumsList]
        | cons r rest2 =>
          have h2 : (if (rest2.all fun t => t.1 == r.1) = true then
              some ((es.length :: r.1,
                ((r :: rest2).map Prod.snd).flatten) : List Nat × List ℚ)
              else none) = some (s, d) := h
          rcases Bool.eq_false_or_eq_true (rest2.all (fun t => t.1 == r.1)) with hu | hu
          swap
          · rw [if_neg (by simp [hu])] at h2
            simp at h2
          · rw [if_pos hu] at h2
            injection h2 with h
            have hs := (Prod.mk.injEq _ _ _ _ |>.mp h.symm).1
            have hd := (Prod.mk.injEq _ _ _ _ |>.mp h.symm).2
            subst hs; subst hd
            have huniform : ∀ t ∈ r :: rest2, t.2.length = r.1.prod := by
              intro t ht
              rcases List.mem_cons.mp ht with hh | hh
              · subst hh; exact hall t (List.mem_cons_self _ _)
              · have heq : t.1 = r.1 := by
                  have := List.all_eq_true.mp hu t hh
                  exact beq_iff_eq.mp this
                rw [← heq]
                exact hall t (List.mem_cons_of_mem _ hh)
            constructor
            · show ((r :: rest2).map Prod.snd).flatten = flattenNums (.arr es)
              rw [hflat]
              rfl
            · rw [flatten_length_const (r :: rest2) r.1.prod huniform]
              simp only [List.prod_cons]
              rw [← hlen]

theorem inferShape_sound (v : JsonValue) (s : List Nat) (d : List ℚ)
    (h : inferShape v = some (s, d)) :
    d = flattenNums v ∧ d.length = s.prod :=
  inferShape_sound_aux (sizeOf v) v (Nat.le_refl _) s d h

theorem decodeOneInput_sound (declared : List Nat) (p : Precision)
    (v : JsonValue) (buf : TensorBuffer)
    (h : decodeOneInput declared p v = some buf) :
    buf.data = (flattenNums v).map (convertScalar p) ∧
    buf.data.length = buf.shape.prod ∧
    buf.elementType = p ∧
    buf.shape.length = declared.length ∧
    buf.shape.tail = declared.tail := by
  simp only [decodeOneInput] at h
  cases hi : inferShape v with
  | none => rw [hi] at h; simp at h
  | some r =>
    rw [hi] at h
    obtain ⟨s2, d2⟩ := r
    have h2 : (if s2.length = declared.length ∧ s2.tail = declared.tail then
        some (⟨s2, p, d2.map (convertScalar p)⟩ : TensorBuffer)
        else none) = some buf := h
    by_cases hc : s2.length = declared.length ∧ s2.tail = declared.tail
    · rw [if_pos hc] at h2
      injection h2 with h2
      subst h2
      obtain ⟨hd, hlen⟩ := inferShape_sound v s2 d2 hi
      refine ⟨by rw [hd], ?_, rfl, hc.1, hc.2⟩
      simpa using hlen
    · rw [if_neg hc] at h2
      simp at h2

theorem parseInputsFields_sound (sig : List (String × List Nat × Precision)) :
    ∀ (fs : List (String × JsonValue)) (bufs : List (String × TensorBuffer)),
      parseInputsFields sig fs = some bufs →
      bufs.length = fs.length ∧
      ∀ nb ∈ bufs, nb.2.data.length = nb.2.shape.prod ∧
        ∃ decl, sig.lookup nb.1 = some decl ∧ nb.2.elementType = decl.2 ∧
          nb.2.shape.length = decl.1.length ∧ nb.2.shape.tail = decl.1.tail ∧
          ∃ v, (nb.1, v) ∈ fs ∧
            nb.2.data = (flattenNums v).map (convertScalar decl.2) := by
  intro fs
  induction fs with
  | nil =>
    intro bufs h
    simp only [parseInputsFields] at h
    injection h with h
    subst h
    simp
  | cons f rest ih =>
    intro bufs h
    obtain ⟨name, v⟩ := f
    simp only [parseInputsFields] at h
    cases hsig : sig.lookup name with
    | none => rw [hsig] at h; simp at h
    | some decl =>
      rw [hsig] at h
      obtain ⟨declared, p⟩ := decl
      have h2 : (match decodeOneInput declared p v with
          | none => none
          | some buf =>
            match parseInputsFields sig rest with
            | none => none
            | some bufs2 => some ((name, buf) :: bufs2)) = some bufs := h
      cases hdec : decodeOneInput declared p v with
      | none => rw [hdec] at h2; simp at h2
      | some buf =>
        rw [hdec] at h2
        cases hrest : parseInputsFields sig rest with
        | none => rw [hrest] at h2; simp at h2
        | some bufs2 =>
          rw [hrest] at h2
          injection h2 with h2
          subst h2
          obtain ⟨hlen2, hsound2⟩ := ih bufs2 hrest
          obtain ⟨hdata, hdl, he, hsl, hst⟩ :=
            decodeOneInput_sound declared p v buf hdec
          refine ⟨by simp [hlen2], ?_⟩
          intro nb hnb
          rcases List.mem_cons.mp hnb with hh | hh
          · subst hh
            refine ⟨hdl, (declared, p), hsig, he, hsl, hst, v,
              List.mem_cons_self _ _, ?_⟩
            simpa [he] using hdata
          · obtain ⟨hq, decl2, hq2, hq3, hq4, hq5, v2, hv2, hv3⟩ := hsound2 nb hh
            exact ⟨hq, decl2, hq2, hq3, hq4, hq5, v2,
              List.mem_cons_of_mem _ hv2, hv3⟩

theorem parseNamedColumn_fail_no_output
    (sig : List (String × List Nat × Precision)) (body : JsonValue) :
    (parseNamedColumn sig body).1 ≠ .OK → (parseNamedColumn sig body).2 = [] := by
  intro h
  cases body with
  | obj fields =>
    simp only [parseNamedColumn] at h ⊢
    cases hf : fields.lookup "inputs" with
    | none => rfl
    | some v =>
      rw [hf] at h
      cases v with
      | obj inputFields =>
        show (if inputFields.isEmpty = true then
            ((RestStatus.REST_NO_INPUTS_FOUND, []) :
              RestStatus × List (String × TensorBuffer))
          else match parseInputsFields sig inputFields with
            | some bufs => (RestStatus.OK, bufs)
            | none => (RestStatus.REST_COULD_NOT_PARSE_INPUT, [])).2 = []
        have h2 : (if inputFields.isEmpty = true then
            ((RestStatus.REST_NO_INPUTS_FOUND, []) :
              RestStatus × List (String × TensorBuffer))
          else match parseInputsFields sig inputFields with
            | some bufs => (RestStatus.OK, bufs)
            | none => (RestStatus.REST_COULD_NOT_PARSE_INPUT, [])).1 ≠
            RestStatus.OK := h
        by_cases hemp : inputFields.isEmpty = true
        · rw [if_pos hemp]
        · rw [if_neg hemp] at h2 ⊢
          cases hp : parseInputsFields sig inputFields with
          | none => rfl
          | some bufs =>
            rw [hp] at h2
            exact absurd rfl h2
      | num q => rfl
      | str s => rfl
      | boolean b => rfl
      | null => rfl
      | arr es => rfl
  | num q => rfl
  | str s => rfl
  | boolean b => rfl
  | null => rfl
  | arr es => rfl

theorem ratTrunc_intCast (i : Int) : ratTrunc (i : ℚ) = i := by
  simp [ratTrunc]

theorem intWrapUnsigned_eq_self (w : Nat) (i : Int) (h0 : 0 ≤ i)
    (h1 : i < 2 ^ w) : intWrapUnsigned w i = i :=
  Int.emod_eq_of_lt h0 h1

theorem intWrapSigned_eq_self (w : Nat) (i : Int) (hw : 1 ≤ w)
    (h0 : -(2 ^ (w - 1)) ≤ i) (h1 : i < 2 ^ (w - 1)) :
    intWrapSigned w i = i := by
  have hpow : (2 : Int) ^ w = 2 ^ (w - 1) * 2 := by
    conv_lhs => rw [show w = (w - 1) + 1 by omega]
    rw [pow_succ]
  have hp2 : (0 : Int) < 2 ^ (w - 1) := by positivity
  rcases le_or_lt 0 i with hge | hlt
  · have hmod : i % (2 : Int) ^ w = i := Int.emod_eq_of_lt hge (by omega)
    simp only [intWrapSigned, hmod]
    rw [if_pos h1]
  · have hmod : i % (2 : Int) ^ w = i + 2 ^ w := by
      have hstep : (i + 2 ^ w) % (2 : Int) ^ w = i % (2 : Int) ^ w := by simp
      rw [← hstep]
      exact Int.emod_eq_of_lt (by omega) (by omega)
    simp only [intWrapSigned, hmod]
    rw [if_neg (by omega)]
    omega

theorem Precision.width_pos (p : Precision) : 1 ≤ p.width := by
  cases p <;> decide

theorem convertScalar_int_exact (p : Precision) (i : Int)
    (hf : p.isFloat = false)
    (hr : (p.signed = true ∧ -(2 ^ (p.width - 1)) ≤ i ∧ i < 2 ^ (p.width - 1)) ∨
          (p.signed = false ∧ 0 ≤ i ∧ i < 2 ^ p.width)) :
    convertScalar p (i : ℚ) = (i : ℚ) := by
  rcases hr with ⟨hs, hlo, hhi⟩ | ⟨hs, hlo, hhi⟩
  · have hwrap := intWrapSigned_eq_self p.width i (Precision.width_pos p) hlo hhi
    simp [convertScalar, hf, hs, ratTrunc_intCast, hwrap]
  · have hwrap := intWrapUnsigned_eq_self p.width i hlo hhi
    simp [convertScalar, hf, hs, ratTrunc_intCast, hwrap]

def sigOneByOne : List (String × List Nat × Precision) := [("i", ([1, 1], .FP32))]

def bodyOneByOne : JsonValue :=
  .obj [("signature_name", .str ""),
    ("inputs", .obj [("i", .arr [.arr [.num 155]])])]

def sigU16 : List (String × List Nat × Precision) := [("i", ([1, 1, 4], .U16))]

def bodyU16 : JsonValue :=
  .obj [("signature_name", .str ""),
    ("inputs", .obj [("i", .arr [.arr [.arr
      [.num 0, .num 5, .num 128, .num 65535]]])])]

def sigI8 : List (String × List Nat × Precision) := [("i", ([1, 1, 4], .I8))]

def bodyI8 : JsonValue :=
  .obj [("signature_name", .str ""),
    ("inputs", .obj [("i", .arr [.arr [.arr
      [.num 0, .num (-5), .num 127, .num (-128)]]])])]

def sigShape21 : List (String × List Nat × Precision) := [("i", ([2, 1], .FP32))]

def bodyInputsString : JsonValue :=
  .obj [("signature_name", .str ""), ("inputs", .str "string")]

def bodyInputsNumber : JsonValue :=
  .obj [("signature_name", .str ""), ("inputs", .num 5)]

def bodyInputsEmpty : JsonValue :=
  .obj [("signature_name", .str ""), ("inputs", .obj [])]

def bodyNoInputs : JsonValue := .obj [("signature_name", .str "")]

def bodyScalarInput : JsonValue :=
  .obj [("signature_name", .str ""), ("inputs", .obj [("i", .num 2)])]

def bodyNullInput : JsonValue :=
  .obj [("signature_name", .str ""), ("inputs", .obj [("i", .null)])]

def bodyMixedNullInput : JsonValue :=
  .obj [("signature_name", .str ""),
    ("inputs", .obj [("i", .arr [.num 1, .null])])]

def sigRagged : List (String × List Nat × Precision) :=
  [("i", ([1, 2, 3, 2], .FP32))]

def bodyRagged : JsonValue :=
  .obj [("signature_name", .str ""),
    ("inputs", .obj [("i", .arr [.arr [
      .arr [.arr [.num 1, .num 2], .arr [.num 1, .num 3],
            .arr [.num 1, .num 4, .num 5]],
      .arr [.arr [.num 5, .num 8], .arr [.num 9, .num 3],
            .arr [.num 1, .num 4]]]])])]

/-- C7: a well-formed NAMED/COLUMN body decodes to one buffer per declared
input whose flat data length equals the product of the shape dimensions and
whose element order is row-major — exactly the nesting order of the source
arrays (`flattenNums`); concretely, the two-input body of declared shapes
[2,2,3,2] and [2,2,3] yields buffers of 24 and 12 elements in nesting order,
and an input declared [1,1] with body [[155]] yields the buffer [155]. -/
theorem codec_row_major_decode :
    (∀ (sig : List (String × List Nat × Precision))
       (fs : List (String × JsonValue)) (bufs : List (String × TensorBuffer)),
       parseInputsFields sig fs = some bufs →
       bufs.length = fs.length ∧
       ∀ nb ∈ bufs, nb.2.data.length = nb.2.shape.prod ∧
         ∃ decl, sig.lookup nb.1 = some decl ∧ nb.2.elementType = decl.2 ∧
           nb.2.shape.length = decl.1.length ∧ nb.2.shape.tail = decl.1.tail ∧
           ∃ v, (nb.1, v) ∈ fs ∧
             nb.2.data = (flattenNums v).map (convertScalar decl.2)) ∧
    parseNamedColumn sigTwoInputs bodyTwoInputs =
      (.OK,
       [("inputA", ⟨[2, 2, 3, 2], .FP32,
          [1, 2, 3, 4, 5, 6, 7, 8, 9, 10, 11, 12,
           101, 102, 103, 104, 105, 106, 107, 108, 109, 110, 111, 112]⟩),
        ("inputB", ⟨[2, 2, 3], .FP32,
          [1, 2, 3, 4, 5, 6, 11, 12, 13, 14, 15, 16]⟩)]) ∧
    parseNamedColumn sigOneByOne bodyOneByOne =
      (.OK, [("i", ⟨[1, 1], .FP32, [155]⟩)]) :=
  ⟨parseInputsFields_sound, by decide, by decide⟩

/-- Witness for C7: the general decode property applied to the concrete
[1,1]-shaped input [[155]]. -/
theorem codec_row_major_decode_witness :
    ([("i", (⟨[1, 1], .FP32, [155]⟩ : TensorBuffer))] :
        List (String × TensorBuffer)).length =
      ([("i", JsonValue.arr [.arr [.num 155]])] :
        List (String × JsonValue)).length ∧
    ∀ nb ∈ ([("i", (⟨[1, 1], .FP32, [155]⟩ : TensorBuffer))] :
        List (String × TensorBuffer)),
      nb.2.data.length = nb.2.shape.prod ∧
      ∃ decl, sigOneByOne.lookup nb.1 = some decl ∧
        nb.2.elementType = decl.2 ∧
        nb.2.shape.length = decl.1.length ∧ nb.2.shape.tail = decl.1.tail ∧
        ∃ v, (nb.1, v) ∈ ([("i", JsonValue.arr [.arr [.num 155]])] :
            List (String × JsonValue)) ∧
          nb.2.data = (flattenNums v).map (convertScalar decl.2) :=
  codec_row_major_decode.1 sigOneByOne [("i", .arr [.arr [.num 155]])]
    [("i", ⟨[1, 1], .FP32, [155]⟩)] (by decide)

/-- C8: integer-typed decoding is exact for in-range values — no wraparound
occurs inside the declared type's range; the unsigned-16 body
[[[0,5,128,65535]]] decodes to exactly those values and the signed-8 body
[[[0,-5,127,-128]]] likewise. -/
theorem codec_integer_exact :
    (∀ (p : Precision) (i : Int), p.isFloat = false →
      ((p.signed = true ∧ -(2 ^ (p.width - 1)) ≤ i ∧ i < 2 ^ (p.width - 1)) ∨
       (p.signed = false ∧ 0 ≤ i ∧ i < 2 ^ p.width)) →
      convertScalar p (i : ℚ) = (i : ℚ)) ∧
    parseNamedColumn sigU16 bodyU16 =
      (.OK, [("i", ⟨[1, 1, 4], .U16, [0, 5, 128, 65535]⟩)]) ∧
    parseNamedColumn sigI8 bodyI8 =
      (.OK, [("i", ⟨[1, 1, 4], .I8, [0, -5, 127, -128]⟩)]) :=
  ⟨convertScalar_int_exact, by decide, by decide⟩

/-- Witness for C8: exactness at the extreme in-range values 65535 (u16) and
-128 (i8). -/
theorem codec_integer_exact_witness :
    convertScalar .U16 ((65535 : Int) : ℚ) = ((65535 : Int) : ℚ) ∧
    convertScalar .I8 ((-128 : Int) : ℚ) = ((-128 : Int) : ℚ) :=
  ⟨codec_integer_exact.1 .U16 65535 rfl (by decide),
   codec_integer_exact.1 .I8 (-128) rfl (by decide)⟩

/-- C9: codec failures fall into exactly three kinds — empty or missing
`inputs` yields no-inputs-found, a non-container `inputs` (string, number)
yields inputs-not-a-container, and every malformed input (scalar where an
array is declared, null terminal, mixed terminal, ragged nesting) yields the
single generic could-not-parse kind; on every failure the whole request is
rejected with no tensor output. -/
theorem codec_failure_taxonomy :
    (∀ (sig : List (String × List Nat × Precision)) (body : JsonValue),
       (parseNamedColumn sig body).1 = .OK ∨
       (parseNamedColumn sig body).1 = .REST_INPUTS_NOT_AN_OBJECT ∨
       (parseNamedColumn sig body).1 = .REST_NO_INPUTS_FOUND ∨
       (parseNamedColumn sig body).1 = .REST_COULD_NOT_PARSE_INPUT) ∧
    (∀ (sig : List (String × List Nat × Precision)) (body : JsonValue),
       (parseNamedColumn sig body).1 ≠ .OK →
       (parseNamedColumn sig body).2 = []) ∧
    (∀ sig, parseNamedColumn sig bodyInputsString =
       (.REST_INPUTS_NOT_AN_OBJECT, [])) ∧
    (∀ sig, parseNamedColumn sig bodyInputsNumber =
       (.REST_INPUTS_NOT_AN_OBJECT, [])) ∧
    (∀ sig, parseNamedColumn sig bodyInputsEmpty =
       (.REST_NO_INPUTS_FOUND, [])) ∧
    (∀ sig, parseNamedColumn sig bodyNoInputs =
       (.REST_NO_INPUTS_FOUND, [])) ∧
    parseNamedColumn sigShape21 bodyScalarInput =
      (.REST_COULD_NOT_PARSE_INPUT, []) ∧
    parseNamedColumn sigShape21 bodyNullInput =
      (.REST_COULD_NOT_PARSE_INPUT, []) ∧
    parseNamedColumn sigShape21 bodyMixedNullInput =
      (.REST_COULD_NOT_PARSE_INPUT, []) ∧
    parseNamedColumn sigRagged bodyRagged =
      (.REST_COULD_NOT_PARSE_INPUT, []) := by
  refine ⟨?_, parseNamedColumn_fail_no_output, fun sig => rfl, fun sig => rfl,
    fun sig => rfl, fun sig => rfl, by decide, by decide, by decide, by decide⟩
  intro sig body
  generalize (parseNamedColumn sig body).1 = st
  cases st
  · exact Or.inl rfl
  · exact Or.inr (Or.inl rfl)
  · exact Or.inr (Or.inr (Or.inl rfl))
  · exact Or.inr (Or.inr (Or.inr rfl))

/-- Witness for C9: no tensors are produced on a concrete failing request. -/
theorem codec_failure_taxonomy_witness :
    (parseNamedColumn sigShape21 bodyScalarInput).2 = [] :=
  codec_failure_taxonomy.2.1 sigShape21 bodyScalarInput (by decide)

end ModelServer
